import Mathlib

/-!
Shallow embedding of `phc2sys.c` (linuxptp): a utility that disciplines a
slave clock from either a PPS edge source or a direct PHC-vs-system read,
through a PI servo with a four-stage bootstrap state machine.

Modelling conventions:
* C `double` values (`drift`, `kp`, `ki`, `ppb`) are modelled with exact
  rational arithmetic (`ℚ`), i.e. the real-valued semantics of the formulas.
* C `int64_t` / `uint64_t` values are modelled as `ℤ`; where the source
  performs a `uint64_t` subtraction converted to `int64_t`
  (`delta = ts - srv->last_ts`), the wrap-around is made explicit
  (`u64_to_i64`).
* Calls to the kernel (`clock_adjtime`) are modelled as emitted commands
  (`Cmd`); `clock_ppb` / `clock_step` internals are modelled separately.
* Fallible samplers return `Option`; `none` is the "no sample / skip this
  iteration" indication that in the source is the `return 0` path.
-/

namespace Phc2sys

/-- NS_PER_SEC from the source (`1000000000LL`). -/
def NS_PER_SEC : ℤ := 1000000000

/-- max_ppb from the source (`512000`), as the double it is compared with. -/
def max_ppb : ℚ := 512000

/-- min_ppb from the source (`-512000`), as the double it is compared with. -/
def min_ppb : ℚ := -512000

/-- Default proportional gain KP (`0.7`). -/
def KP : ℚ := 7/10

/-- Default integral gain KI (`0.3`). -/
def KI : ℚ := 3/10

/-- A clock-adjustment command emitted to the destination clock: either a
frequency adjustment of so many ppb (`clock_ppb(dst, v)`) or a phase step of
so many signed nanoseconds (`clock_step(dst, ns)`). -/
inductive Cmd where
  | ppb : ℚ → Cmd
  | step : ℤ → Cmd
deriving DecidableEq

/-- C cast of a rational (the exact value of a `double`) to `long`:
truncation toward zero.  `q.num / q.den` is in lowest terms with positive
denominator, so `Int.tdiv` (T-division) is exactly the C cast. -/
def c_long_cast (q : ℚ) : ℤ := Int.tdiv q.num q.den

/-- The `tx.freq` value submitted by `clock_ppb`:
`tx.freq = (long) (ppb * 65.536)`.  The literal `65.536` denotes exactly
`65536/1000` (the decimal value; rational model of the double constant). -/
def clock_ppb_freq (ppb : ℚ) : ℤ := c_long_cast (ppb * (65536 / 1000))

/-- Modelled from the spec's words: frequency scaled by exactly 65.536
(= 8192/125) and then truncated to an integer (toward zero). -/
def kernel_freq_spec (ppb : ℚ) : ℤ :=
  if 0 ≤ ppb * (8192 / 125) then ⌊ppb * (8192 / 125)⌋ else ⌈ppb * (8192 / 125)⌉

/-- The `sign` local of `clock_step`: `-1` for negative steps, else `1`. -/
def step_sign (ns : ℤ) : ℤ := if ns < 0 then -1 else 1

/-- The magnitude `ns` holds after the `if (ns < 0) { ns *= -1; }` prologue
of `clock_step`. -/
def step_mag (ns : ℤ) : ℤ := if ns < 0 then -ns else ns

/-- The `(tv_sec, tv_usec)` pair submitted by `clock_step` to
`clock_adjtime` (with ADJ_SETOFFSET | ADJ_NANO, so `tv_usec` carries
nanoseconds): sign/magnitude split, then normalization so that the
fractional field is non-negative, borrowing one second when needed. -/
def clock_step_tx (ns : ℤ) : ℤ × ℤ :=
  let sec := step_sign ns * (step_mag ns / NS_PER_SEC)
  let usec := step_sign ns * (step_mag ns % NS_PER_SEC)
  if usec < 0 then (sec - 1, usec + 1000000000) else (sec, usec)

/-- Reinterpretation of a `uint64_t` computation as `int64_t` (the
conversion in `delta = ts - srv->last_ts`). -/
def u64_to_i64 (n : ℤ) : ℤ :=
  if n % 18446744073709551616 < 9223372036854775808 then n % 18446744073709551616
  else n % 18446744073709551616 - 18446744073709551616

/-- The servo states `SAMPLE_0 .. SAMPLE_N` from the source. -/
inductive SState where
  | SAMPLE_0
  | SAMPLE_1
  | SAMPLE_2
  | SAMPLE_3
  | SAMPLE_N
deriving DecidableEq

/-- `struct servo`: last timestamp, drift estimate (a double, modelled
exactly), and the bootstrap state. -/
structure Servo where
  last_ts : ℤ
  drift : ℚ
  state : SState
deriving DecidableEq

/-- The process-wide `static struct servo servo`, zero-initialized, so the
initial state is `SAMPLE_0` with `last_ts = 0` and `drift = 0`. -/
def servo_init : Servo := { last_ts := 0, drift := 0, state := SState.SAMPLE_0 }

/-- One call of `do_servo`: returns the updated servo record and the list
of clock-adjustment commands issued to the destination clock during the
call.  Faithful transcription of the `switch (srv->state)` body plus the
final `srv->last_ts = ts`. -/
def do_servo (srv : Servo) (offset : ℤ) (ts : ℤ) (kp ki : ℚ) : Servo × List Cmd :=
  match srv.state with
  | SState.SAMPLE_0 =>
      ({ srv with state := SState.SAMPLE_1, last_ts := ts }, [Cmd.ppb 0])
  | SState.SAMPLE_1 =>
      ({ srv with state := SState.SAMPLE_2, last_ts := ts }, [])
  | SState.SAMPLE_2 =>
      let delta : ℤ := u64_to_i64 (ts - srv.last_ts)
      let offset2 : ℤ := delta - NS_PER_SEC
      ({ srv with drift := (offset2 : ℚ), state := SState.SAMPLE_3, last_ts := ts },
       [Cmd.ppb (-(offset2 : ℚ))])
  | SState.SAMPLE_3 =>
      ({ srv with state := SState.SAMPLE_N, last_ts := ts }, [Cmd.step (-offset)])
  | SState.SAMPLE_N =>
      let ki_term : ℚ := ki * (offset : ℚ)
      let ppb : ℚ := kp * (offset : ℚ) + srv.drift + ki_term
      if ppb < min_ppb then
        ({ srv with last_ts := ts }, [Cmd.ppb (-min_ppb)])
      else if max_ppb < ppb then
        ({ srv with last_ts := ts }, [Cmd.ppb (-max_ppb)])
      else
        ({ srv with drift := srv.drift + ki_term, last_ts := ts }, [Cmd.ppb (-ppb)])

/-- Iterated servo calls over a list of `(offset, ts)` samples. -/
def runServo (kp ki : ℚ) : Servo → List (ℤ × ℤ) → Servo
  | s, [] => s
  | s, i :: rest => runServo kp ki (do_servo s i.1 i.2 kp ki).1 rest

/-- The successor function of the servo state machine. -/
def nextState : SState → SState
  | SState.SAMPLE_0 => SState.SAMPLE_1
  | SState.SAMPLE_1 => SState.SAMPLE_2
  | SState.SAMPLE_2 => SState.SAMPLE_3
  | SState.SAMPLE_3 => SState.SAMPLE_N
  | SState.SAMPLE_N => SState.SAMPLE_N

/-- The servo state reached after `n` calls starting from the initial
state: `SAMPLE_0, SAMPLE_1, SAMPLE_2, SAMPLE_3`, then `SAMPLE_N` forever. -/
def stateAfter : ℕ → SState
  | 0 => SState.SAMPLE_0
  | 1 => SState.SAMPLE_1
  | 2 => SState.SAMPLE_2
  | 3 => SState.SAMPLE_3
  | _ + 4 => SState.SAMPLE_N

/-- `read_pps` after a successful PPS_FETCH with edge timestamp `ts`
(seconds·1e9 + nanoseconds, a `uint64_t`, hence non-negative): produces
`(offset, ts)` where the sub-second residual is wrapped to the nearest
second boundary. -/
def read_pps_sample (ts : ℤ) : ℤ × ℤ :=
  let offset := ts % NS_PER_SEC
  let offset2 := if NS_PER_SEC / 2 < offset then offset - NS_PER_SEC else offset
  (offset2, ts)

/-- `read_phc`: `valid` is `clkid != CLOCK_INVALID`; `tsrc`/`tdst` are the
results of the two `clock_gettime` calls as `(tv_sec, tv_nsec)` pairs
(`none` models a failing read).  Returns `none` on any of the three early
`return 0` paths, otherwise the `(offset, ts)` sample. -/
def read_phc (valid : Bool) (tsrc tdst : Option (ℤ × ℤ)) (rdelay : ℤ) :
    Option (ℤ × ℤ) :=
  if valid then
    match tsrc with
    | none => none
    | some (ssec, snsec) =>
      match tdst with
      | none => none
      | some (dsec, dnsec) =>
        some (dsec * NS_PER_SEC - ssec * NS_PER_SEC + dnsec - snsec - rdelay,
              dsec * NS_PER_SEC + dnsec)
  else none

/-- One iteration of the main loop, reduced to which sample (if any) is fed
to `do_servo`: with a PPS device (`fd > 0`) the servo runs on the PPS
sample, but only after both `read_pps` and `read_phc` succeeded; without
one it runs on the PHC sample when `read_phc` succeeded.  `none` means the
iteration `continue`s without calling the servo. -/
def loop_iter {α : Type} (fdPos : Bool) (ppsRes phcRes : Option α) : Option α :=
  if fdPos then
    match ppsRes with
    | none => none
    | some pps =>
      match phcRes with
      | none => none
      | some _ => some pps
  else
    match phcRes with
    | none => none
    | some phc => some phc

/-- The samples fed to the servo over a list of iterations, each iteration
described by its `read_pps` result and the two raw clock readings consumed
by `read_phc`. -/
def servo_feeds (fdPos srcValid : Bool) (rdelay : ℤ)
    (iters : List (Option (ℤ × ℤ) × Option (ℤ × ℤ) × Option (ℤ × ℤ))) :
    List (ℤ × ℤ) :=
  iters.filterMap fun it => loop_iter fdPos it.1 (read_phc srcValid it.2.1 it.2.2 rdelay)

/-- The startup checks of `main` before the control loop:
`deviceGiven` is `device != NULL` (a PPS device was configured),
`srcValid` is `src != CLOCK_INVALID`, `dstValid` is `dst != CLOCK_INVALID`,
`devOpenOk` is whether `open(device)` succeeded.  `Except.error c` models
`return c` before the loop; `Except.ok ()` models entering the loop. -/
def main_startup (deviceGiven srcValid dstValid devOpenOk : Bool) : Except ℤ Unit :=
  if !(deviceGiven || srcValid) || !dstValid then Except.error (-1)
  else if deviceGiven && !devOpenOk then Except.error (-1)
  else Except.ok ()

lemma c_long_cast_eq (q : ℚ) : c_long_cast q = if 0 ≤ q then ⌊q⌋ else ⌈q⌉ := by
  unfold c_long_cast
  by_cases hq : 0 ≤ q
  · rw [if_pos hq, Rat.floor_def]
    exact Int.tdiv_eq_ediv (Rat.num_nonneg.mpr hq) (Int.natCast_nonneg _)
  · rw [if_neg hq]
    have h1 : 0 ≤ (-q).num := Rat.num_nonneg.mpr (by linarith [not_le.mp hq])
    have h2 : Int.tdiv q.num q.den = -(Int.tdiv (-q).num (-q).den) := by
      rw [Rat.num_neg_eq_neg_num, Rat.den_neg_eq_den, Int.neg_tdiv, neg_neg]
    rw [h2, Int.tdiv_eq_ediv h1 (Int.natCast_nonneg _), ← Rat.floor_def,
      Int.floor_neg, neg_neg]

lemma clock_ppb_freq_eq (ppb : ℚ) : clock_ppb_freq ppb = kernel_freq_spec ppb := by
  unfold clock_ppb_freq kernel_freq_spec
  rw [c_long_cast_eq]
  norm_num

lemma read_phc_invalid (tsrc tdst : Option (ℤ × ℤ)) (rdelay : ℤ) :
    read_phc false tsrc tdst rdelay = none := rfl

lemma loop_iter_none {α : Type} (fdPos : Bool) (pps : Option α) :
    loop_iter fdPos pps none = none := by
  cases fdPos <;> cases pps <;> rfl

lemma do_servo_sample_N (lts : ℤ) (d : ℚ) (o ts : ℤ) (kp ki : ℚ) :
    do_servo ⟨lts, d, SState.SAMPLE_N⟩ o ts kp ki =
      if kp * (o : ℚ) + d + ki * (o : ℚ) < min_ppb then
        (⟨ts, d, SState.SAMPLE_N⟩, [Cmd.ppb (-min_ppb)])
      else if max_ppb < kp * (o : ℚ) + d + ki * (o : ℚ) then
        (⟨ts, d, SState.SAMPLE_N⟩, [Cmd.ppb (-max_ppb)])
      else
        (⟨ts, d + ki * (o : ℚ), SState.SAMPLE_N⟩,
          [Cmd.ppb (-(kp * (o : ℚ) + d + ki * (o : ℚ)))]) := rfl

lemma do_servo_sample_2 (lts : ℤ) (d : ℚ) (o ts : ℤ) (kp ki : ℚ) :
    do_servo ⟨lts, d, SState.SAMPLE_2⟩ o ts kp ki =
      (⟨ts, ((u64_to_i64 (ts - lts) - NS_PER_SEC : ℤ) : ℚ), SState.SAMPLE_3⟩,
       [Cmd.ppb (-((u64_to_i64 (ts - lts) - NS_PER_SEC : ℤ) : ℚ))]) := rfl

lemma do_servo_state (srv : Servo) (o ts : ℤ) (kp ki : ℚ) :
    ((do_servo srv o ts kp ki).1).state = nextState srv.state := by
  obtain ⟨lts, d, st⟩ := srv
  cases st
  case SAMPLE_N =>
    rw [show (⟨lts, d, SState.SAMPLE_N⟩ : Servo).state = SState.SAMPLE_N from rfl,
      do_servo_sample_N]
    split_ifs <;> rfl
  all_goals rfl

lemma runServo_state (kp ki : ℚ) :
    ∀ (inputs : List (ℤ × ℤ)) (s : Servo),
      (runServo kp ki s inputs).state = nextState^[inputs.length] s.state := by
  intro inputs
  induction inputs with
  | nil => intro s; rfl
  | cons i rest ih =>
      intro s
      simp only [runServo, List.length_cons]
      rw [ih, do_servo_state, Function.iterate_succ_apply]

lemma stateAfter_succ (n : ℕ) : stateAfter (n + 1) = nextState (stateAfter n) := by
  rcases n with _ | _ | _ | _ | m <;> rfl

lemma stateAfter_eq (n : ℕ) : nextState^[n] SState.SAMPLE_0 = stateAfter n := by
  induction n with
  | zero => rfl
  | succ m ih => rw [Function.iterate_succ_apply', ih, ← stateAfter_succ]

/-- C1: in the `SAMPLE_N` (TRACKING) state with drift `d` and input offset
`o`, let `ppb = kp*o + d + ki*o`; inside `[-512000, 512000]` the drift
becomes `d + ki*o` and the applied correction is `-ppb`; strictly below
`-512000` (resp. above `512000`) the applied correction is `-(-512000)`
(resp. `-512000`) and the drift is unchanged; exactly at the boundaries
`|ppb| = 512000` the applied correction is still `-ppb` (the clamp value)
with the drift accumulating as in the in-range case. -/
theorem tracking_update (lts : ℤ) (d : ℚ) (o ts : ℤ) (kp ki : ℚ) (p : ℚ)
    (hp : p = kp * (o : ℚ) + d + ki * (o : ℚ)) :
    (min_ppb ≤ p → p ≤ max_ppb →
      (do_servo ⟨lts, d, SState.SAMPLE_N⟩ o ts kp ki).1.drift = d + ki * (o : ℚ) ∧
      (do_servo ⟨lts, d, SState.SAMPLE_N⟩ o ts kp ki).2 = [Cmd.ppb (-p)]) ∧
    (p < min_ppb →
      (do_servo ⟨lts, d, SState.SAMPLE_N⟩ o ts kp ki).1.drift = d ∧
      (do_servo ⟨lts, d, SState.SAMPLE_N⟩ o ts kp ki).2 =
        [Cmd.ppb (-(-512000 : ℚ))]) ∧
    (max_ppb < p →
      (do_servo ⟨lts, d, SState.SAMPLE_N⟩ o ts kp ki).1.drift = d ∧
      (do_servo ⟨lts, d, SState.SAMPLE_N⟩ o ts kp ki).2 =
        [Cmd.ppb (-(512000 : ℚ))]) ∧
    (p = min_ppb ∨ p = max_ppb →
      (do_servo ⟨lts, d, SState.SAMPLE_N⟩ o ts kp ki).1.drift = d + ki * (o : ℚ) ∧
      (do_servo ⟨lts, d, SState.SAMPLE_N⟩ o ts kp ki).2 = [Cmd.ppb (-p)]) := by
  subst hp
  rw [do_servo_sample_N]
  simp only [min_ppb, max_ppb]
  split_ifs with h1 h2
  · refine ⟨fun hmin _ => absurd h1 (not_lt.mpr hmin), fun _ => ⟨rfl, rfl⟩,
      fun hgt => absurd h1 (by linarith), fun hb => ?_⟩
    rcases hb with hb | hb <;> rw [hb] at h1 <;> norm_num at h1
  · refine ⟨fun _ hmax => absurd h2 (not_lt.mpr hmax), fun hlt => absurd hlt h1,
      fun _ => ⟨rfl, rfl⟩, fun hb => ?_⟩
    rcases hb with hb | hb <;> rw [hb] at h2 <;> norm_num at h2
  · exact ⟨fun _ _ => ⟨rfl, rfl⟩, fun hlt => absurd hlt h1,
      fun hgt => absurd hgt h2, fun _ => ⟨rfl, rfl⟩⟩

/-- Witness for C1: with `kp = 0.7`, `ki = 0.3`, drift `0`, offset `1000`,
the unclamped `ppb` is `1000`; the drift accumulates to `0 + 0.3·1000` and
the applied correction is `-1000`. -/
theorem tracking_update_witness :
    (do_servo ⟨0, 0, SState.SAMPLE_N⟩ 1000 5 (7/10) (3/10)).1.drift =
        (0 : ℚ) + (3/10) * ((1000 : ℤ) : ℚ) ∧
    (do_servo ⟨0, 0, SState.SAMPLE_N⟩ 1000 5 (7/10) (3/10)).2 =
        [Cmd.ppb (-(1000 : ℚ))] := by
  have h := tracking_update 0 0 1000 5 (7/10) (3/10) 1000 (by push_cast; norm_num)
  exact h.1 (by norm_num [min_ppb]) (by norm_num [max_ppb])

/-- C2: the servo state advances deterministically and independently of
the samples fed in: one `nextState` hop per call, and after `n` calls from
the zero-initialized servo the state is exactly
`SAMPLE_0, SAMPLE_1, SAMPLE_2, SAMPLE_3, then SAMPLE_N forever` — never
regressing, never skipping. -/
theorem servo_state_sequence :
    (∀ (srv : Servo) (o ts : ℤ) (kp ki : ℚ),
        ((do_servo srv o ts kp ki).1).state = nextState srv.state) ∧
    (∀ (kp ki : ℚ) (inputs : List (ℤ × ℤ)),
        (runServo kp ki servo_init inputs).state = stateAfter inputs.length) := by
  refine ⟨do_servo_state, fun kp ki inputs => ?_⟩
  rw [runServo_state]
  exact stateAfter_eq inputs.length

/-- C3: a `SAMPLE_2` (MEASURE_INTERVAL) call with stored `last_ts` and
input timestamp `ts` (no `uint64` wrap in range) sets the drift to
`(ts - last_ts) - 1e9` and applies the frequency correction
`-((ts - last_ts) - 1e9)` ppb, moving to `SAMPLE_3`. -/
theorem measure_interval (lts : ℤ) (d : ℚ) (o ts : ℤ) (kp ki : ℚ)
    (h1 : lts ≤ ts) (h2 : ts - lts < 9223372036854775808) :
    (do_servo ⟨lts, d, SState.SAMPLE_2⟩ o ts kp ki).1.drift =
      ((ts - lts - 1000000000 : ℤ) : ℚ) ∧
    (do_servo ⟨lts, d, SState.SAMPLE_2⟩ o ts kp ki).2 =
      [Cmd.ppb (-((ts - lts - 1000000000 : ℤ) : ℚ))] ∧
    (do_servo ⟨lts, d, SState.SAMPLE_2⟩ o ts kp ki).1.state = SState.SAMPLE_3 := by
  have hd : u64_to_i64 (ts - lts) = ts - lts := by
    unfold u64_to_i64
    have hm : (ts - lts) % 18446744073709551616 = ts - lts := by omega
    rw [hm, if_pos h2]
  rw [do_servo_sample_2, hd]
  exact ⟨rfl, rfl, rfl⟩

/-- Witness for C3: with `last_ts = 0` and `ts = 1_500_000_000` the
measured offset is `500_000_000`, the drift becomes `500_000_000` and the
applied correction is `-500_000_000` ppb. -/
theorem measure_interval_witness :
    (do_servo ⟨0, 0, SState.SAMPLE_2⟩ 0 1500000000 KP KI).1.drift = 500000000 ∧
    (do_servo ⟨0, 0, SState.SAMPLE_2⟩ 0 1500000000 KP KI).2 =
      [Cmd.ppb (-500000000)] := by
  have h := measure_interval 0 0 0 1500000000 KP KI (by norm_num) (by norm_num)
  refine ⟨?_, ?_⟩
  · rw [h.1]; norm_num
  · rw [h.2.1]; norm_num

/-- C7: the `tx.freq` value handed to the kernel adjustment primitive is
exactly `ppb` scaled by `65.536 = 8192/125` and truncated toward zero, for
every `ppb`; e.g. `1000 ppb` submits `65536`, `1 ppb` submits `65`, and
`-1 ppb` submits `-65`. -/
theorem clock_ppb_scale :
    (∀ ppb : ℚ, clock_ppb_freq ppb = kernel_freq_spec ppb) ∧
    (65536 / 1000 : ℚ) = 8192 / 125 ∧
    clock_ppb_freq 1000 = 65536 ∧
    clock_ppb_freq 1 = 65 ∧
    clock_ppb_freq (-1) = -65 := by
  refine ⟨clock_ppb_freq_eq, by norm_num, ?_, ?_, ?_⟩
  · rw [clock_ppb_freq_eq]
    unfold kernel_freq_spec
    rw [if_pos (by norm_num), show ((1000 : ℚ) * (8192 / 125)) = ((65536 : ℤ) : ℚ)
      by norm_num, Int.floor_intCast]
  · rw [clock_ppb_freq_eq]
    unfold kernel_freq_spec
    rw [if_pos (by norm_num), Int.floor_eq_iff]
    constructor <;> norm_num
  · rw [clock_ppb_freq_eq]
    unfold kernel_freq_spec
    rw [if_neg (by norm_num), Int.ceil_eq_iff]
    constructor <;> norm_num

/-- C8: the servo is invoked only when `read_phc` produced a sample, and
`read_phc` with an invalid master handle never does; so with only a PPS
device configured (`src == CLOCK_INVALID`) the servo is never called in any
iteration, even when the PPS fetch succeeded. -/
theorem servo_needs_valid_src :
    (∀ (fdPos : Bool) (pps phc : Option (ℤ × ℤ)) (s : ℤ × ℤ),
        loop_iter fdPos pps phc = some s → phc ≠ none) ∧
    (∀ (fdPos : Bool) (pps : Option (ℤ × ℤ)) (tsrc tdst : Option (ℤ × ℤ))
        (rdelay : ℤ),
        loop_iter fdPos pps (read_phc false tsrc tdst rdelay) = none) ∧
    (∀ (fdPos : Bool) (rdelay : ℤ)
        (iters : List (Option (ℤ × ℤ) × Option (ℤ × ℤ) × Option (ℤ × ℤ))),
        servo_feeds fdPos false rdelay iters = []) := by
  refine ⟨?_, ?_, ?_⟩
  · intro fdPos pps phc s h hnone
    subst hnone
    rw [loop_iter_none] at h
    exact Option.noConfusion h
  · intro fdPos pps tsrc tdst rdelay
    rw [read_phc_invalid, loop_iter_none]
  · intro fdPos rdelay iters
    induction iters with
    | nil => rfl
    | cons a t ih =>
        simp only [servo_feeds] at ih ⊢
        rw [List.filterMap_cons, read_phc_invalid, loop_iter_none]
        exact ih

/-- Witness for C8: a successful iteration shows the conditional is
satisfiable — when the servo does run, the `read_phc` result was a sample. -/
theorem servo_needs_valid_src_witness :
    (some ((3 : ℤ), (4 : ℤ)) : Option (ℤ × ℤ)) ≠ none :=
  servo_needs_valid_src.1 true (some (1, 2)) (some (3, 4)) (1, 2) rfl

/-- C4: for every successfully fetched PPS edge with timestamp `ts` ns, the
produced offset is `ts mod 1e9`, reduced by `1e9` when that residual
exceeds `5e8`, hence always in `(-5e8, +5e8]`; a raw residual of `9e8`
yields `-1e8` and a raw residual of `4e8` stays `4e8`. -/
theorem pps_offset_wrap :
    (∀ ts : ℤ, (read_pps_sample ts).1 =
        (if 500000000 < ts % 1000000000 then ts % 1000000000 - 1000000000
         else ts % 1000000000) ∧
      (read_pps_sample ts).2 = ts ∧
      -500000000 < (read_pps_sample ts).1 ∧ (read_pps_sample ts).1 ≤ 500000000) ∧
    (read_pps_sample 900000000).1 = -100000000 ∧
    (read_pps_sample 400000000).1 = 400000000 := by
  refine ⟨fun ts => ?_, by decide, by decide⟩
  have h : read_pps_sample ts =
      (if 500000000 < ts % 1000000000 then ts % 1000000000 - 1000000000
       else ts % 1000000000, ts) := by
    simp only [read_pps_sample, NS_PER_SEC]
    norm_num
  rw [h]
  refine ⟨rfl, rfl, ?_, ?_⟩ <;> split_ifs <;> omega

/-- C5: every successful direct-read sample has
`offset = (dst_time - src_time) - rdelay` and `timestamp = dst_time`
(destination-clock nanoseconds); an invalid source handle produces no
sample rather than an error. -/
theorem read_phc_offset :
    (∀ ssec snsec dsec dnsec rdelay : ℤ,
        read_phc true (some (ssec, snsec)) (some (dsec, dnsec)) rdelay =
          some (dsec * 1000000000 + dnsec - (ssec * 1000000000 + snsec) - rdelay,
                dsec * 1000000000 + dnsec)) ∧
    (∀ (tsrc tdst : Option (ℤ × ℤ)) (rdelay : ℤ),
        read_phc false tsrc tdst rdelay = none) := by
  constructor
  · intro ssec snsec dsec dnsec rdelay
    have h : dsec * 1000000000 - ssec * 1000000000 + dnsec - snsec - rdelay =
        dsec * 1000000000 + dnsec - (ssec * 1000000000 + snsec) - rdelay := by ring
    simp [read_phc, NS_PER_SEC, h]
  · exact fun tsrc tdst rdelay => rfl

/-- C6: for every signed phase step of `ns` nanoseconds the submitted
`(tv_sec, tv_usec)` pair has a non-negative sub-second fraction and its
fields sum back to `ns` (one second is borrowed when needed); stepping by
`-1_500_000_000` ns has sign `-1`, magnitude one second and fraction
`500_000_000`, and submits `(-2, 500_000_000)` (i.e. `-1.5 s` with a
non-negative fractional field). -/
theorem clock_step_fraction_nonneg :
    (∀ ns : ℤ, 0 ≤ (clock_step_tx ns).2 ∧ (clock_step_tx ns).2 < 1000000000 ∧
        (clock_step_tx ns).1 * 1000000000 + (clock_step_tx ns).2 = ns) ∧
    step_sign (-1500000000) = -1 ∧
    step_mag (-1500000000) / NS_PER_SEC = 1 ∧
    step_mag (-1500000000) % NS_PER_SEC = 500000000 ∧
    clock_step_tx (-1500000000) = (-2, 500000000) := by
  refine ⟨fun ns => ?_, by decide, by decide, by decide, by decide⟩
  simp only [clock_step_tx, step_sign, step_mag, NS_PER_SEC]
  split_ifs <;> omega

/-- C9: if at startup the destination clock handle is invalid, or neither a
PPS device nor a master clock is configured, `main` returns the non-zero
status `-1` before the control loop starts. -/
theorem startup_config_error (deviceGiven srcValid dstValid devOpenOk : Bool)
    (h : dstValid = false ∨ (deviceGiven = false ∧ srcValid = false)) :
    main_startup deviceGiven srcValid dstValid devOpenOk = Except.error (-1) ∧
    (-1 : ℤ) ≠ 0 := by
  refine ⟨?_, by norm_num⟩
  rcases h with h | ⟨h1, h2⟩
  · subst h; simp [main_startup]
  · subst h1; subst h2; simp [main_startup]

/-- Witness for C9: destination valid but neither PPS device nor master
clock configured exits with `-1`. -/
theorem startup_config_error_witness :
    main_startup false false true true = Except.error (-1) ∧ (-1 : ℤ) ≠ 0 :=
  startup_config_error false false true true (Or.inr ⟨rfl, rfl⟩)

/-- C10: in the `SAMPLE_2` (MEASURE_INTERVAL) state the whole servo call —
resulting record and emitted commands — is independent of the input offset,
which is overwritten by the interval computation. -/
theorem sample2_offset_independent (srv : Servo) (o1 o2 ts : ℤ) (kp ki : ℚ)
    (h : srv.state = SState.SAMPLE_2) :
    do_servo srv o1 ts kp ki = do_servo srv o2 ts kp ki := by
  obtain ⟨lts, d, st⟩ := srv
  change st = SState.SAMPLE_2 at h
  subst h
  rfl

/-- Witness for C10: two `SAMPLE_2` calls differing only in the offset
(111 vs -222) coincide. -/
theorem sample2_offset_independent_witness :
    do_servo ⟨0, 0, SState.SAMPLE_2⟩ 111 1500000000 KP KI =
      do_servo ⟨0, 0, SState.SAMPLE_2⟩ (-222) 1500000000 KP KI :=
  sample2_offset_independent ⟨0, 0, SState.SAMPLE_2⟩ 111 (-222) 1500000000 KP KI rfl

end Phc2sys
